import Mathlib

/-!
Verification of the package-index service (`package_objects.py`, `package_server.py`).

Package names are modelled as `List Char` (Python `str`).  Python dictionaries
mapping names to lists of names are modelled as association lists with unique
keys; `dictGet`, `dictSet`, `dictPop` model `d.get(k, None)`, `d[k] = v` and
`d.pop(k, None)`.  Python exceptions raised by the store operations are modelled
with `Except`; since mutations performed before a raise persist in the source,
every operation also returns the (possibly partially mutated) store state.
-/

namespace PackageIndex

abbrev Name := List Char

abbrev Dict := List (Name × List Name)

/-- Models `d.get(k, None)` on a Python dict `d`. -/
def dictGet (d : Dict) (k : Name) : Option (List Name) :=
  match d with
  | [] => none
  | (k', v) :: rest => if k' = k then some v else dictGet rest k

/-- Models the Python membership test `k in d` on a dict `d`. -/
def dictHas (d : Dict) (k : Name) : Bool :=
  (dictGet d k).isSome

/-- Models `d[k] = v`: replace the value at an existing key in place, or append
a fresh key at the end (Python dicts preserve insertion order). -/
def dictSet (d : Dict) (k : Name) (v : List Name) : Dict :=
  match d with
  | [] => [(k, v)]
  | (k', v') :: rest => if k' = k then (k, v) :: rest else (k', v') :: dictSet rest k v

/-- Models `d.pop(k, None)`: drop the entry for `k` if present. -/
def dictPop (d : Dict) (k : Name) : Dict :=
  d.filter (fun e => !(e.1 = k : Bool))

/-- Python exception kinds the store operations can raise. -/
inductive PyErr where
  | valueError
  | keyError
deriving DecidableEq

/-- Models `l.remove(v)` on a Python list: drop the first occurrence of `v`,
raise `ValueError` if `v` is absent (in which case the list is unchanged). -/
def listRemove (l : List Name) (v : Name) : Except PyErr (List Name) :=
  match l with
  | [] => .error .valueError
  | x :: xs => if x = v then .ok xs else (listRemove xs v).map (x :: ·)

/-- Models `used_by[item].remove(name)`: `KeyError` if `item` is not a key,
`ValueError` from `list.remove` if `name` is not in the list. -/
def usedByRemove (ub : Dict) (item name : Name) : Except PyErr Dict :=
  match dictGet ub item with
  | none => .error .keyError
  | some l => (listRemove l name).map (fun l' => dictSet ub item l')

/-- Models `for item in items: used_by[item].remove(name)`.  On a raise the
mutations already performed persist, so the partial dict is returned together
with the exception. -/
def cleanupLoop (ub : Dict) (name : Name) : List Name → Dict × Option PyErr
  | [] => (ub, none)
  | item :: rest =>
    match usedByRemove ub item name with
    | .error e => (ub, some e)
    | .ok ub' => cleanupLoop ub' name rest

/-- Models the loop `for x in deps: if name not in used_by: used_by[x].append(name)`
from `DataPackageStore.add_package` (the guard tests membership of `name` among
the KEYS of `used_by`, exactly as the source line reads). -/
def appendLoop (ub : Dict) (name : Name) : List Name → Dict × Option PyErr
  | [] => (ub, none)
  | x :: rest =>
    if dictHas ub name then appendLoop ub name rest
    else
      match dictGet ub x with
      | none => (ub, some .keyError)
      | some l => appendLoop (dictSet ub x (l ++ [name])) name rest

/-- State of a `DataPackageStore`: the `used_by` (reverse) and `dependencies`
(forward) dicts. -/
structure DataPackageStore where
  used_by : Dict
  dependencies : Dict
deriving DecidableEq

/-- The store state produced by fresh empty maps (`used_by={}`, `dependencies={}`). -/
def emptyStore : DataPackageStore := ⟨[], []⟩

/-- Models `DataPackageStore.find_package`: `self.dependencies.get(key, None)`. -/
def find_package (s : DataPackageStore) (key : Name) : Option (List Name) :=
  dictGet s.dependencies key

/-- Models Python truthiness `not x` for an optional list/string value:
`None` and the empty collection are falsy. -/
def pyFalsy {α : Type} : Option (List α) → Bool
  | none => true
  | some [] => true
  | some (_ :: _) => false

/-- Models `DataPackageStore.add_package`.  Steps, in source order: the
dependency guard (`any(x not in self.dependencies ...)` returning `None`),
the cleanup of dropped dependencies for a truthy `prev`
(`for item in [x for x in prev if x not in package.dependencies]:
used_by[item].remove(name)`), the reverse-lookup append loop, the assignment
`dependencies[name] = package.dependencies`, and the `used_by[name] = []`
default.  A raised exception is returned together with the mutated state. -/
def add_package (s : DataPackageStore) (name : Name) (deps : List Name) :
    Except PyErr (Option Name) × DataPackageStore :=
  if deps.any (fun x => !dictHas s.dependencies x) then
    (.ok none, s)
  else
    let cleanup :=
      match dictGet s.dependencies name with
      | some (i :: is) =>
          cleanupLoop s.used_by name ((i :: is).filter (fun x => decide (x ∉ deps)))
      | _ => (s.used_by, none)
    match cleanup with
    | (ub, some e) => (.error e, { s with used_by := ub })
    | (ub, none) =>
      match appendLoop ub name deps with
      | (ub', some e) => (.error e, { s with used_by := ub' })
      | (ub', none) =>
        (.ok (some name),
         { used_by := if dictHas ub' name then ub' else dictSet ub' name [],
           dependencies := dictSet s.dependencies name deps })

/-- Models `DataPackageStore.remove_package`: an absent key is reported as a
successful removal; a package with a truthy `used_by` entry is refused
(`None`); otherwise the reverse entries are cleaned
(`for x in val: used_by[x].remove(key)`) and both dict entries popped. -/
def remove_package (s : DataPackageStore) (key : Name) :
    Except PyErr (Option Name) × DataPackageStore :=
  match find_package s key with
  | none => (.ok (some key), s)
  | some val =>
    if pyFalsy (dictGet s.used_by key) then
      match cleanupLoop s.used_by key val with
      | (ub, some e) => (.error e, { s with used_by := ub })
      | (ub, none) =>
        (.ok (some key),
         { used_by := dictPop ub key,
           dependencies := dictPop s.dependencies key })
    else
      (.ok none, s)

/-- The command literal `CMD_INDEX = "INDEX"`. -/
def CMD_INDEX : Name := ['I', 'N', 'D', 'E', 'X']

/-- The command literal `CMD_REMOVE = "REMOVE"`. -/
def CMD_REMOVE : Name := ['R', 'E', 'M', 'O', 'V', 'E']

/-- The command literal `CMD_QUERY = "QUERY"`. -/
def CMD_QUERY : Name := ['Q', 'U', 'E', 'R', 'Y']

/-- The list `VALID_COMMANDS = [CMD_INDEX, CMD_REMOVE, CMD_QUERY]`. -/
def VALID_COMMANDS : List Name := [CMD_INDEX, CMD_REMOVE, CMD_QUERY]

/-- Split a character list at the first `'|'`, allowing an empty token before
it; `none` when no `'|'` occurs. -/
def splitBarAux : List Char → Option (Name × List Char)
  | [] => none
  | c :: cs =>
    if c = '|' then some ([], cs)
    else (splitBarAux cs).map (fun p => (c :: p.1, p.2))

/-- Greedy match of `[^\|]+` followed by the literal `|`: the (nonempty) token
before the first `'|'` together with the remainder after it. -/
def splitBar (s : List Char) : Option (Name × List Char) :=
  match splitBarAux s with
  | some (t, r) => if t = [] then none else some (t, r)
  | none => none

/-- Models `request_regex.match(req_string)` for the pattern
`(?P<cmd>[^\|]+)\|(?P<name>[^\|]+)\|(?P<depends>.*)`.  `re.match` anchors at
the start of the string only; each `[^\|]+` greedily matches up to the first
`'|'`; `.*` matches the longest run of characters other than a newline, and
whatever input remains after it is ignored. -/
def regexMatch (s : List Char) : Option (Name × Name × List Char) :=
  match splitBar s with
  | none => none
  | some (cmd, rest1) =>
    match splitBar rest1 with
    | none => none
    | some (nm, rest2) => some (cmd, nm, rest2.takeWhile (fun c => !(c = '\n' : Bool)))

/-- Models Python `str.split(',')`: split on every comma, keeping empty tokens. -/
def splitComma : List Char → List Name
  | [] => [[]]
  | c :: cs =>
    if c = ',' then [] :: splitComma cs
    else
      match splitComma cs with
      | t :: ts => (c :: t) :: ts
      | [] => [[c]]

/-- The structured request built by `DataPackage.__init__`. -/
structure DataPackage where
  command : Name
  name : Name
  dependencies : List Name
deriving DecidableEq

/-- Models `DataPackage.__init__(req_string)`: `ValueError` on a falsy input,
a regex non-match, or a command outside `VALID_COMMANDS`; otherwise the match
groups, with the `depends` group comma-split unless empty. -/
def DataPackage.parse (req : List Char) : Except PyErr DataPackage :=
  if req = [] then .error .valueError
  else
    match regexMatch req with
    | none => .error .valueError
    | some (cmd, nm, dep) =>
      if cmd ∈ VALID_COMMANDS then
        .ok ⟨cmd, nm, if dep = [] then [] else splitComma dep⟩
      else .error .valueError

/-- The response literal `RESPONSE_OK = "OK\n"`. -/
def RESPONSE_OK : List Char := ['O', 'K', '\n']

/-- The response literal `RESPONSE_FAIL = "FAIL\n"`. -/
def RESPONSE_FAIL : List Char := ['F', 'A', 'I', 'L', '\n']

/-- The response literal `RESPONSE_ERROR = "ERROR\n"`. -/
def RESPONSE_ERROR : List Char := ['E', 'R', 'R', 'O', 'R', '\n']

/-- Models `TCPClientHandler.process_request(data)`: the whole received chunk
is handed to `DataPackage` (a `ValueError` yields `ERROR`), then dispatched on
the command; `QUERY` answers `FAIL` exactly when `find_package` returns
`None`; `REMOVE` and `INDEX` answer `FAIL` on a falsy returned value; any
exception escaping a store call is caught and answered with `ERROR`, the
mutations it performed persisting in the shared store. -/
def process_request (st : DataPackageStore) (data : List Char) :
    List Char × DataPackageStore :=
  match DataPackage.parse data with
  | .error _ => (RESPONSE_ERROR, st)
  | .ok req =>
    if req.command = CMD_QUERY then
      match find_package st req.name with
      | none => (RESPONSE_FAIL, st)
      | some _ => (RESPONSE_OK, st)
    else if req.command = CMD_REMOVE then
      match remove_package st req.name with
      | (.ok pack, st') => (if pyFalsy pack then RESPONSE_FAIL else RESPONSE_OK, st')
      | (.error _, st') => (RESPONSE_ERROR, st')
    else
      match add_package st req.name req.dependencies with
      | (.ok p, st') => (if pyFalsy p then RESPONSE_FAIL else RESPONSE_OK, st')
      | (.error _, st') => (RESPONSE_ERROR, st')

/-- Models the receive loop of `TCPClientHandler.handle`: each chunk returned
by `self.request.recv(2048)` is passed whole to `process_request` and the
single reply sent back; the store state threads through the chunks. -/
def handle (st : DataPackageStore) : List (List Char) → List (List Char) × DataPackageStore
  | [] => ([], st)
  | chunk :: rest =>
    let r := process_request st chunk
    let rs := handle r.2 rest
    (r.1 :: rs.1, rs.2)

/-- Number of newline-terminated frames contained in a chunk of bytes. -/
def countFrames (chunk : List Char) : Nat :=
  chunk.count '\n'

theorem dictGet_dictSet_self (d : Dict) (k : Name) (v : List Name) :
    dictGet (dictSet d k v) k = some v := by
  induction d with
  | nil => simp [dictSet, dictGet]
  | cons e rest ih =>
    by_cases hk : e.1 = k
    · simp [dictSet, hk, dictGet]
    · simp [dictSet, hk, dictGet, ih]

theorem dictGet_dictSet_ne (d : Dict) (k k' : Name) (v : List Name) (h : k ≠ k') :
    dictGet (dictSet d k v) k' = dictGet d k' := by
  induction d with
  | nil => simp [dictSet, dictGet, h]
  | cons e rest ih =>
    by_cases hk : e.1 = k
    · simp [dictSet, hk, dictGet, h, ih]
    · simp [dictSet, hk, dictGet, ih]

theorem dictHas_dictSet_self (d : Dict) (k : Name) (v : List Name) :
    dictHas (dictSet d k v) k = true := by
  simp [dictHas, dictGet_dictSet_self]

theorem dictSet_dictSet_self (d : Dict) (k : Name) (v w : List Name) :
    dictSet (dictSet d k v) k w = dictSet d k w := by
  induction d with
  | nil => simp [dictSet]
  | cons e rest ih =>
    by_cases hk : e.1 = k
    · simp [dictSet, hk]
    · simp [dictSet, hk, ih]

theorem dictGet_dictPop_self (d : Dict) (k : Name) :
    dictGet (dictPop d k) k = none := by
  induction d with
  | nil => simp [dictPop, dictGet]
  | cons e rest ih =>
    by_cases hk : e.1 = k
    · simpa [dictPop, hk] using ih
    · simpa [dictPop, hk, dictGet] using ih

theorem appendLoop_of_has (ub : Dict) (name : Name) (l : List Name)
    (h : dictHas ub name = true) : appendLoop ub name l = (ub, none) := by
  induction l with
  | nil => rfl
  | cons x rest ih => simp [appendLoop, h, ih]

theorem filter_not_mem_of_subset (l l₂ : List Name) (h : ∀ x ∈ l, x ∈ l₂) :
    l.filter (fun x => decide (x ∉ l₂)) = [] := by
  induction l with
  | nil => rfl
  | cons x rest ih =>
    have hx : x ∈ l₂ := h x (List.mem_cons_self x rest)
    simp only [List.filter_cons, decide_eq_true_eq]
    rw [if_neg (by simp [hx])]
    exact ih (fun y hy => h y (List.mem_cons_of_mem x hy))

/-- Characterization of a successful `add_package` call: the returned name is
the package's own, the forward map gets the given dependency list verbatim,
the name ends up among the keys of `used_by`, and the dependency guard held. -/
theorem add_ok_state (s : DataPackageStore) (nm : Name) (deps : List Name) (m : Name)
    (h : (add_package s nm deps).1 = .ok (some m)) :
    m = nm ∧
    (add_package s nm deps).2.dependencies = dictSet s.dependencies nm deps ∧
    dictHas (add_package s nm deps).2.used_by nm = true ∧
    ∀ x ∈ deps, dictHas s.dependencies x = true := by
  revert h
  unfold add_package
  split
  · intro h; exact absurd h (by simp)
  · next hg =>
    have hall : ∀ x ∈ deps, dictHas s.dependencies x = true := by
      intro x hx
      by_contra hfalse
      exact hg (List.any_eq_true.mpr ⟨x, hx, by simp [Bool.not_eq_true] at hfalse ⊢; exact hfalse⟩)
    dsimp only
    split
    · intro h; exact absurd h (by simp)
    · split
      · intro h; exact absurd h (by simp)
      · intro h
        refine ⟨by simpa using h.symm, rfl, ?_, hall⟩
        dsimp only
        split
        · next hu => exact hu
        · exact dictHas_dictSet_self ..

/-- A second `add_package` with the identical dependency list, performed right
after a first one that returned the package name, returns the name again and
leaves the store state exactly as the first call left it. -/
theorem add_package_twice (s : DataPackageStore) (p : Name) (deps : List Name)
    (h : (add_package s p deps).1 = .ok (some p)) :
    add_package (add_package s p deps).2 p deps = (.ok (some p), (add_package s p deps).2) := by
  obtain ⟨-, hdep, hub, hall⟩ := add_ok_state s p deps p h
  set s1 := (add_package s p deps).2 with hs1
  have hg : (deps.any (fun x => !dictHas s1.dependencies x)) = false := by
    rw [List.any_eq_false]
    intro x hx
    by_cases hxp : p = x
    · simp [hdep, ← hxp, dictHas, dictGet_dictSet_self]
    · simp [hdep, dictHas, dictGet_dictSet_ne _ _ _ _ hxp]
      have := hall x hx
      simpa [dictHas, Option.isSome_iff_ne_none] using this
  have hprev : dictGet s1.dependencies p = some deps := by
    rw [hdep]; exact dictGet_dictSet_self ..
  have hclean :
      (match dictGet s1.dependencies p with
       | some (i :: is) =>
           cleanupLoop s1.used_by p ((i :: is).filter (fun x => decide (x ∉ deps)))
       | _ => (s1.used_by, none)) = (s1.used_by, none) := by
    rw [hprev]
    match deps with
    | [] => rfl
    | i :: is =>
      have : (i :: is).filter (fun x => decide (x ∉ i :: is)) = [] :=
        filter_not_mem_of_subset _ _ (fun x hx => hx)
      simp only [this]
      rfl
  unfold add_package
  rw [if_neg (by simp [hg])]
  dsimp only
  rw [hclean]
  dsimp only
  rw [appendLoop_of_has _ _ _ hub]
  simp only [hub, if_pos]
  have hdd : dictSet s1.dependencies p deps = s1.dependencies := by
    rw [hdep, dictSet_dictSet_self]
  rw [hdd]

/-- After a successful `add_package`, the forward map holds the given list. -/
theorem find_after_add (s : DataPackageStore) (x : Name) (deps : List Name)
    (h : (add_package s x deps).1 = .ok (some x)) :
    find_package (add_package s x deps).2 x = some deps := by
  obtain ⟨-, hdep, -, -⟩ := add_ok_state s x deps x h
  rw [find_package, hdep, dictGet_dictSet_self]

/-- After a `remove_package` that returned the key, the key is gone from the
forward map. -/
theorem find_after_remove (s : DataPackageStore) (x : Name)
    (h : (remove_package s x).1 = .ok (some x)) :
    find_package (remove_package s x).2 x = none := by
  revert h
  unfold remove_package
  split
  · next hfind => intro _; simpa [find_package] using hfind
  · split
    · split
      · intro h; exact absurd h (by simp)
      · intro _
        simp only [find_package]
        exact dictGet_dictPop_self ..
    · intro h; exact absurd h (by simp)

theorem splitBarAux_eq_some (s : List Char) (t : Name) (r : List Char)
    (h : splitBarAux s = some (t, r)) : s = t ++ '|' :: r ∧ '|' ∉ t := by
  induction s generalizing t with
  | nil => simp [splitBarAux] at h
  | cons c cs ih =>
    by_cases hc : c = '|'
    · rw [splitBarAux, if_pos hc] at h
      simp only [Option.some.injEq, Prod.mk.injEq] at h
      obtain ⟨rfl, rfl⟩ := h
      subst hc
      simp
    · rw [splitBarAux, if_neg hc] at h
      match hsp : splitBarAux cs with
      | none => rw [hsp] at h; simp at h
      | some (t', r') =>
        rw [hsp] at h
        dsimp only [Option.map] at h
        simp only [Option.some.injEq, Prod.mk.injEq] at h
        obtain ⟨h1, h2⟩ := h
        subst h2
        obtain ⟨hceq, hmem⟩ := ih t' hsp
        subst h1
        constructor
        · simp [hceq]
        · intro hm
          rcases List.mem_cons.mp hm with h' | h'
          · exact hc h'.symm
          · exact hmem h'

theorem splitBarAux_append (t : Name) (r : List Char) (h : '|' ∉ t) :
    splitBarAux (t ++ '|' :: r) = some (t, r) := by
  induction t with
  | nil => simp [splitBarAux]
  | cons c cs ih =>
    have hc : ¬ c = '|' := fun hc => h (by simp [hc])
    have htail : '|' ∉ cs := fun hm => h (List.mem_cons_of_mem _ hm)
    simp [splitBarAux, hc, ih htail]

theorem splitBar_eq_some (s : List Char) (t : Name) (r : List Char) :
    splitBar s = some (t, r) ↔ s = t ++ '|' :: r ∧ '|' ∉ t ∧ t ≠ [] := by
  constructor
  · intro h
    unfold splitBar at h
    match hsp : splitBarAux s with
    | none => rw [hsp] at h; simp at h
    | some (t', r') =>
      rw [hsp] at h
      dsimp only at h
      by_cases ht : t' = []
      · rw [if_pos ht] at h; simp at h
      · rw [if_neg ht] at h
        simp only [Option.some.injEq, Prod.mk.injEq] at h
        obtain ⟨h1, h2⟩ := h
        subst h1 h2
        obtain ⟨hceq, hmem⟩ := splitBarAux_eq_some s _ _ hsp
        exact ⟨hceq, hmem, ht⟩
  · rintro ⟨rfl, hmem, hne⟩
    unfold splitBar
    rw [splitBarAux_append t r hmem]
    dsimp only
    rw [if_neg hne]

theorem regexMatch_eq_some (s : List Char) (cmd nm : Name) (dep : List Char) :
    regexMatch s = some (cmd, nm, dep) ↔
      ∃ rest, s = cmd ++ '|' :: (nm ++ '|' :: rest) ∧
        '|' ∉ cmd ∧ cmd ≠ [] ∧ '|' ∉ nm ∧ nm ≠ [] ∧
        dep = rest.takeWhile (fun c => !(c = '\n' : Bool)) := by
  constructor
  · intro h
    unfold regexMatch at h
    match h1 : splitBar s with
    | none => rw [h1] at h; simp at h
    | some (c1, r1) =>
      rw [h1] at h
      dsimp only at h
      match h2 : splitBar r1 with
      | none => rw [h2] at h; simp at h
      | some (n1, r2) =>
        rw [h2] at h
        dsimp only at h
        simp only [Option.some.injEq, Prod.mk.injEq] at h
        obtain ⟨hc, hn, hd⟩ := h
        subst hc hn
        obtain ⟨hs1, hm1, hne1⟩ := (splitBar_eq_some s c1 r1).mp h1
        obtain ⟨hs2, hm2, hne2⟩ := (splitBar_eq_some r1 n1 r2).mp h2
        exact ⟨r2, by rw [hs1, hs2], hm1, hne1, hm2, hne2, hd.symm⟩
  · rintro ⟨rest, rfl, hm1, hne1, hm2, hne2, rfl⟩
    unfold regexMatch
    rw [(splitBar_eq_some _ cmd (nm ++ '|' :: rest)).mpr ⟨rfl, hm1, hne1⟩]
    dsimp only
    rw [(splitBar_eq_some _ nm rest).mpr ⟨rfl, hm2, hne2⟩]

theorem valid_command_shape (cmd : Name) (h : cmd ∈ VALID_COMMANDS) :
    '|' ∉ cmd ∧ cmd ≠ [] := by
  simp only [VALID_COMMANDS, List.mem_cons, List.not_mem_nil, or_false] at h
  rcases h with rfl | rfl | rfl <;> decide

theorem parse_eq_ok (cmd nm : Name) (rest : List Char)
    (hcmd : cmd ∈ VALID_COMMANDS) (hnm : nm ≠ []) (hbar : '|' ∉ nm) :
    DataPackage.parse (cmd ++ '|' :: (nm ++ '|' :: rest)) =
      .ok ⟨cmd, nm,
          if rest.takeWhile (fun c => !(c = '\n' : Bool)) = [] then []
          else splitComma (rest.takeWhile (fun c => !(c = '\n' : Bool)))⟩ := by
  obtain ⟨hc1, hc2⟩ := valid_command_shape cmd hcmd
  have hne : cmd ++ '|' :: (nm ++ '|' :: rest) ≠ [] := by
    cases cmd <;> simp
  unfold DataPackage.parse
  rw [if_neg hne, (regexMatch_eq_some _ cmd nm _).mpr ⟨rest, rfl, hc1, hc2, hbar, hnm, rfl⟩]
  dsimp only
  rw [if_pos hcmd]

theorem parse_isOk_iff (s : List Char) :
    (DataPackage.parse s).isOk = true ↔
      ∃ cmd nm rest, s = cmd ++ '|' :: (nm ++ '|' :: rest) ∧
        cmd ∈ VALID_COMMANDS ∧ nm ≠ [] ∧ '|' ∉ nm := by
  constructor
  · intro h
    unfold DataPackage.parse at h
    by_cases hs : s = []
    · rw [if_pos hs] at h; simp [Except.isOk, Except.toBool] at h
    · rw [if_neg hs] at h
      match hm : regexMatch s with
      | none => rw [hm] at h; simp [Except.isOk, Except.toBool] at h
      | some (cmd, nm, dep) =>
        rw [hm] at h
        dsimp only at h
        by_cases hv : cmd ∈ VALID_COMMANDS
        · obtain ⟨rest, hs', hc1, hc2, hbar, hnm, hd⟩ := (regexMatch_eq_some s cmd nm dep).mp hm
          exact ⟨cmd, nm, rest, hs', hv, hnm, hbar⟩
        · rw [if_neg hv] at h; simp [Except.isOk, Except.toBool] at h
  · rintro ⟨cmd, nm, rest, rfl, hv, hnm, hbar⟩
    rw [parse_eq_ok cmd nm rest hv hnm hbar]
    rfl

theorem parse_ok_shape (c : List Char) (req : DataPackage)
    (hp : DataPackage.parse c = .ok req) :
    req.name ≠ [] ∧ req.command ∈ VALID_COMMANDS := by
  unfold DataPackage.parse at hp
  by_cases hs : c = []
  · rw [if_pos hs] at hp; exact absurd hp (by simp)
  · rw [if_neg hs] at hp
    match hm : regexMatch c with
    | none => rw [hm] at hp; simp at hp
    | some (cmd, nm, dep) =>
      rw [hm] at hp
      dsimp only at hp
      by_cases hv : cmd ∈ VALID_COMMANDS
      · rw [if_pos hv] at hp
        obtain ⟨rest, hs', hc1, hc2, hbar, hnm, hd⟩ := (regexMatch_eq_some c cmd nm dep).mp hm
        injection hp with hreq
        subst hreq
        exact ⟨hnm, hv⟩
      · rw [if_neg hv] at hp; exact absurd hp (by simp)

theorem any_missing_false (deps : List Name) (d0 : Dict)
    (hg : ¬ (deps.any fun x => !dictHas d0 x) = true) :
    ∀ x ∈ deps, dictHas d0 x = true := by
  intro x hx
  by_contra hfalse
  exact hg (List.any_eq_true.mpr ⟨x, hx, by
    rw [Bool.not_eq_true] at hfalse
    simp [hfalse]⟩)

/-- The dependency guard is the one and only source of a `None` return from
`add_package`, and a refused call leaves the store untouched. -/
theorem add_refused_characterization (s : DataPackageStore) (nm : Name) (deps : List Name) :
    ((add_package s nm deps).1 = .ok none ↔ ∃ d ∈ deps, dictGet s.dependencies d = none) ∧
    ((add_package s nm deps).1 = .ok none → (add_package s nm deps).2 = s) := by
  by_cases hg : (deps.any fun x => !dictHas s.dependencies x) = true
  · have hres : add_package s nm deps = (.ok none, s) := by
      unfold add_package; rw [if_pos hg]
    obtain ⟨x, hx, hb⟩ := List.any_eq_true.mp hg
    have hxnone : dictGet s.dependencies x = none := by
      rw [Bool.not_eq_true', dictHas] at hb
      exact Option.not_isSome_iff_eq_none.mp (by simp [hb])
    exact ⟨⟨fun _ => ⟨x, hx, hxnone⟩, fun _ => by rw [hres]⟩, fun _ => by rw [hres]⟩
  · have hall := any_missing_false deps s.dependencies hg
    have hnone : (add_package s nm deps).1 ≠ .ok none := by
      unfold add_package
      rw [if_neg hg]
      dsimp only
      split
      · simp
      · split
        · simp
        · simp
    refine ⟨⟨fun hcontra => absurd hcontra hnone, ?_⟩, fun hcontra => absurd hcontra hnone⟩
    rintro ⟨d, hd, hnone'⟩
    have := hall d hd
    rw [dictHas, hnone'] at this
    simp at this

theorem process_request_parse_error (st : DataPackageStore) (c : List Char)
    (h : (DataPackage.parse c).isOk = false) :
    (process_request st c).1 = RESPONSE_ERROR := by
  cases hp : DataPackage.parse c with
  | error e => unfold process_request; rw [hp]
  | ok req => rw [hp] at h; simp [Except.isOk, Except.toBool] at h

theorem process_request_query (st : DataPackageStore) (c : List Char) (req : DataPackage)
    (hp : DataPackage.parse c = .ok req) (hq : req.command = CMD_QUERY) :
    (process_request st c).1 =
      if (find_package st req.name).isSome then RESPONSE_OK else RESPONSE_FAIL := by
  unfold process_request
  rw [hp]
  dsimp only
  rw [if_pos hq]
  cases hf : find_package st req.name <;> simp [hf]

theorem handle_length (st : DataPackageStore) (chunks : List (List Char)) :
    (handle st chunks).1.length = chunks.length := by
  induction chunks generalizing st with
  | nil => rfl
  | cons c rest ih => simp [handle, ih]

theorem pyFalsy_some_of_ne_nil (n : Name) (h : n ≠ []) : pyFalsy (some n) = false := by
  cases n with
  | nil => exact absurd rfl h
  | cons c cs => rfl

theorem process_request_remove (st : DataPackageStore) (c : List Char) (req : DataPackage)
    (hp : DataPackage.parse c = .ok req) (hr : req.command = CMD_REMOVE) :
    ((remove_package st req.name).1 = .ok (some req.name) →
        (process_request st c).1 = RESPONSE_OK) ∧
    ((remove_package st req.name).1 = .ok none →
        (process_request st c).1 = RESPONSE_FAIL) ∧
    (∀ e, (remove_package st req.name).1 = .error e →
        (process_request st c).1 = RESPONSE_ERROR) := by
  obtain ⟨hname, -⟩ := parse_ok_shape c req hp
  have hprq : ¬ req.command = CMD_QUERY := by rw [hr]; decide
  have hpr : ∀ res st', remove_package st req.name = (res, st') →
      (process_request st c).1 =
        (match (res, st') with
         | (.ok pack, s') => ((if pyFalsy pack then RESPONSE_FAIL else RESPONSE_OK), s')
         | (.error _, s') => (RESPONSE_ERROR, s')).1 := by
    intro res st' hrem
    unfold process_request
    rw [hp]
    dsimp only
    rw [if_neg hprq, if_pos hr, hrem]
  match hrem : remove_package st req.name with
  | (.ok pack, st') =>
    refine ⟨?_, ?_, ?_⟩
    · intro hok
      dsimp only at hok
      injection hok with hok
      rw [hpr _ _ hrem]
      subst hok
      simp [pyFalsy_some_of_ne_nil req.name hname]
    · intro hok
      dsimp only at hok
      injection hok with hok
      rw [hpr _ _ hrem]
      subst hok
      rfl
    · intro e he
      dsimp only at he
      simp at he
  | (.error e, st') =>
    refine ⟨?_, ?_, ?_⟩
    · intro hok; dsimp only at hok; simp at hok
    · intro hok; dsimp only at hok; simp at hok
    · intro e' he
      rw [hpr _ _ hrem]

theorem process_request_index (st : DataPackageStore) (c : List Char) (req : DataPackage)
    (hp : DataPackage.parse c = .ok req) (hr : req.command = CMD_INDEX) :
    ((add_package st req.name req.dependencies).1 = .ok (some req.name) →
        (process_request st c).1 = RESPONSE_OK) ∧
    ((add_package st req.name req.dependencies).1 = .ok none →
        (process_request st c).1 = RESPONSE_FAIL) ∧
    (∀ e, (add_package st req.name req.dependencies).1 = .error e →
        (process_request st c).1 = RESPONSE_ERROR) := by
  obtain ⟨hname, -⟩ := parse_ok_shape c req hp
  have hprq : ¬ req.command = CMD_QUERY := by rw [hr]; decide
  have hprr : ¬ req.command = CMD_REMOVE := by rw [hr]; decide
  have hpr : ∀ res st', add_package st req.name req.dependencies = (res, st') →
      (process_request st c).1 =
        (match (res, st') with
         | (.ok pack, s') => ((if pyFalsy pack then RESPONSE_FAIL else RESPONSE_OK), s')
         | (.error _, s') => (RESPONSE_ERROR, s')).1 := by
    intro res st' hadd
    unfold process_request
    rw [hp]
    dsimp only
    rw [if_neg hprq, if_neg hprr, hadd]
  match hadd : add_package st req.name req.dependencies with
  | (.ok pack, st') =>
    refine ⟨?_, ?_, ?_⟩
    · intro hok
      dsimp only at hok
      injection hok with hok
      rw [hpr _ _ hadd]
      subst hok
      simp [pyFalsy_some_of_ne_nil req.name hname]
    · intro hok
      dsimp only at hok
      injection hok with hok
      rw [hpr _ _ hadd]
      subst hok
      rfl
    · intro e he
      dsimp only at he
      simp at he
  | (.error e, st') =>
    refine ⟨?_, ?_, ?_⟩
    · intro hok; dsimp only at hok; simp at hok
    · intro hok; dsimp only at hok; simp at hok
    · intro e' he
      rw [hpr _ _ hadd]

/-- Follows the spec's line grammar for `name` tokens: one or more bytes,
none of them `'|'`, `','` or `'\n'` (spec-side definition, written from the
spec's words for comparison with the code's parser). -/
def specGoodName (n : Name) : Bool :=
  !(decide (n = [])) &&
    n.all (fun c => !(decide (c = '|')) && !(decide (c = ',')) && !(decide (c = '\n')))

/-- Follows the spec's line grammar (spec-side definition):
`line := command "|" name "|" deps` with `command` one of the three literals,
`name` a good name token, and `deps` empty or a comma-separated list of good
name tokens.  Since grammar `command` and `name` tokens cannot contain `'|'`,
splitting at the first two `'|'` characters recovers the unique grammar
decomposition when one exists. -/
def specLine (s : List Char) : Bool :=
  match splitBar s with
  | none => false
  | some (cmd, r1) =>
    match splitBar r1 with
    | none => false
    | some (nm, dep) =>
      decide (cmd ∈ VALID_COMMANDS) && specGoodName nm &&
        (decide (dep = []) || (splitComma dep).all specGoodName)

/-- Models the mutable-default-argument semantics of
`DataPackageStore.__init__(self, lock=Lock(), used_by={}, dependencies={})`:
the two dict literals (and the lock) are evaluated once, when `def __init__`
executes, so every instance constructed as `DataPackageStore()` binds those
same two dict objects.  The module-lifetime pair of default dicts is one
shared `DataPackageStore` state and each default-constructed instance is a
handle to it. -/
structure DefaultDicts where
  shared : DataPackageStore
deriving DecidableEq

/-- World right after class definition: the default dicts are empty, and two
instances `DataPackageStore()` have been constructed, both binding them. -/
def twoDefaultInstances : DefaultDicts := ⟨⟨[], []⟩⟩

/-- An `add_package` call made through the first default-constructed instance:
it acts on the shared default dicts. -/
def addViaFirstInstance (w : DefaultDicts) (nm : Name) (deps : List Name) :
    Except PyErr (Option Name) × DefaultDicts :=
  let r := add_package w.shared nm deps
  (r.1, ⟨r.2⟩)

/-- A `find_package` call made through the second default-constructed
instance: it reads the shared default dicts. -/
def findViaSecondInstance (w : DefaultDicts) (k : Name) : Option (List Name) :=
  find_package w.shared k

/-- **C1** (code bug evidence): the claim says every store operation returns
normally with its two-valued result and never raises.  Refuted on the code: in
the store state reached from the empty store by the three successful calls
`add_package "a" []`, `add_package "b" []`, `add_package "a" ["b"]` (the wire
requests `INDEX|a|`, `INDEX|b|`, `INDEX|a|b`), the re-index guard of
`add_package` skipped the reverse-lookup append, so the further call
`add_package "a" []` reaches `self.used_by["b"].remove("a")` with `"a"`
absent and raises `ValueError`. -/
theorem C1_add_package_raises_in_reachable_state :
    (add_package emptyStore ['a'] []).1 = .ok (some ['a']) ∧
    (add_package (add_package emptyStore ['a'] []).2 ['b'] []).1 = .ok (some ['b']) ∧
    (add_package (add_package (add_package emptyStore
        ['a'] []).2 ['b'] []).2 ['a'] [['b']]).1 = .ok (some ['a']) ∧
    (add_package (add_package (add_package (add_package emptyStore
        ['a'] []).2 ['b'] []).2 ['a'] [['b']]).2 ['a'] []).1 = .error .valueError :=
  ⟨rfl, rfl, rfl, rfl⟩

/-- **C2** (code bug evidence): the claim says that after every successful
operation `d ∈ deps[p]` iff `p ∈ users[d]` in every reachable state.  Refuted
on the code: after the successful sequence `add_package "a" []`,
`add_package "b" []`, `add_package "a" ["b"]` (a reachable state, last call
returning success), `"b"` is in the stored dependency list of `"a"` while the
`used_by` entry of `"b"` is the empty list, missing `"a"`: the re-index append
loop tests `package.name not in self.used_by` (dict keys) instead of
membership in `self.used_by[x]`, so no reverse entry is ever added on
re-index. -/
theorem C2_reverse_consistency_violated :
    (add_package (add_package (add_package emptyStore
        ['a'] []).2 ['b'] []).2 ['a'] [['b']]).1 = .ok (some ['a']) ∧
    find_package (add_package (add_package (add_package emptyStore
        ['a'] []).2 ['b'] []).2 ['a'] [['b']]).2 ['a'] = some [['b']] ∧
    dictGet (add_package (add_package (add_package emptyStore
        ['a'] []).2 ['b'] []).2 ['a'] [['b']]).2.used_by ['b'] = some [] :=
  ⟨rfl, rfl, rfl⟩

/-- **C3** counterexample: the claim says `index(name, deps)` returns Refused
when `name ∈ deps` (self-dependency).  Refuted on the code: once `"a"` is
indexed, the re-index `add_package "a" ["a"]` passes the dependency guard and
returns success, storing the self-loop. -/
theorem C3_selfdep_reindex_not_refused :
    (add_package (add_package emptyStore ['a'] []).2 ['a'] [['a']]).1 = .ok (some ['a']) ∧
    find_package (add_package (add_package emptyStore ['a'] []).2 ['a'] [['a']]).2 ['a'] =
      some [['a']] :=
  ⟨rfl, rfl⟩

/-- **C3** (amended): for every store state and request, `add_package` returns
Refused (`None`) exactly when some `d ∈ deps` is absent from the forward map
(self-dependency is refused only through that condition, i.e. only when `name`
itself is not yet indexed), and whenever it returns Refused both maps are left
unchanged. -/
theorem C3_add_refused_iff_missing_dep (s : DataPackageStore) (nm : Name) (deps : List Name) :
    ((add_package s nm deps).1 = .ok none ↔ ∃ d ∈ deps, dictGet s.dependencies d = none) ∧
    ((add_package s nm deps).1 = .ok none → (add_package s nm deps).2 = s) :=
  add_refused_characterization s nm deps

theorem C3_add_refused_iff_missing_dep_witness :
    (add_package emptyStore ['a'] [['b']]).1 = .ok none ∧
    (add_package emptyStore ['a'] [['b']]).2 = emptyStore :=
  ⟨(C3_add_refused_iff_missing_dep emptyStore ['a'] [['b']]).1.mpr ⟨['b'], by decide, rfl⟩,
   (C3_add_refused_iff_missing_dep emptyStore ['a'] [['b']]).2
     ((C3_add_refused_iff_missing_dep emptyStore ['a'] [['b']]).1.mpr ⟨['b'], by decide, rfl⟩)⟩

/-- **C4** (code bug evidence): the claim says every name listed in any stored
dependency list is itself a key of the forward map, in every reachable state.
Refuted on the code: after the successful sequence `add_package "a" []`,
`add_package "b" []`, `add_package "a" ["b"]`, the call
`remove_package "b"` returns success (the reverse entry for `"b"` is empty
because of the re-index append bug), leaving `"b"` inside the stored
dependency list of `"a"` while `"b"` is no longer a key of the forward map. -/
theorem C4_orphan_reference_after_remove :
    (remove_package (add_package (add_package (add_package emptyStore
        ['a'] []).2 ['b'] []).2 ['a'] [['b']]).2 ['b']).1 = .ok (some ['b']) ∧
    find_package (remove_package (add_package (add_package (add_package emptyStore
        ['a'] []).2 ['b'] []).2 ['a'] [['b']]).2 ['b']).2 ['a'] = some [['b']] ∧
    find_package (remove_package (add_package (add_package (add_package emptyStore
        ['a'] []).2 ['b'] []).2 ['a'] [['b']]).2 ['b']).2 ['b'] = none :=
  ⟨rfl, rfl, rfl⟩

/-- **C5** counterexample: the claim says the parser succeeds exactly on lines
of the strict grammar (name free of `'|'`, `','`, `'\n'`; deps a
comma-separated list of such names, nothing after).  Refuted on the code: the
input `INDEX|a,b|c|d\nXX` is accepted, with name `a,b` (contains a comma),
dependency token `c|d` (contains `'|'`), and the tail from the newline on
silently ignored, while the spec grammar rejects the line. -/
theorem C5_lax_input_parses :
    DataPackage.parse
        ['I', 'N', 'D', 'E', 'X', '|', 'a', ',', 'b', '|', 'c', '|', 'd', '\n', 'X', 'X'] =
      .ok ⟨CMD_INDEX, ['a', ',', 'b'], [['c', '|', 'd']]⟩ ∧
    specLine
        ['I', 'N', 'D', 'E', 'X', '|', 'a', ',', 'b', '|', 'c', '|', 'd', '\n', 'X', 'X'] =
      false :=
  ⟨rfl, rfl⟩

/-- **C5** (amended): the parser returns a structured request exactly when the
input decomposes as `cmd ++ "|" ++ name ++ "|" ++ rest` with `cmd` one of the
three case-sensitive literals and `name` nonempty and free of `'|'` (commas
and newlines inside `name` are accepted); on success the stored dependencies
are the part of `rest` before its first newline, split on commas (empty
becomes the empty list); everything else fails with `ValueError`. -/
theorem C5_parse_characterization :
    (∀ s : List Char, (DataPackage.parse s).isOk = true ↔
        ∃ cmd nm rest, s = cmd ++ '|' :: (nm ++ '|' :: rest) ∧
          cmd ∈ VALID_COMMANDS ∧ nm ≠ [] ∧ '|' ∉ nm) ∧
    (∀ (cmd nm : Name) (rest : List Char), cmd ∈ VALID_COMMANDS → nm ≠ [] → '|' ∉ nm →
        DataPackage.parse (cmd ++ '|' :: (nm ++ '|' :: rest)) =
          .ok ⟨cmd, nm,
              if rest.takeWhile (fun c => !(c = '\n' : Bool)) = [] then []
              else splitComma (rest.takeWhile (fun c => !(c = '\n' : Bool)))⟩) :=
  ⟨parse_isOk_iff, parse_eq_ok⟩

theorem C5_parse_characterization_witness :
    (DataPackage.parse (CMD_QUERY ++ '|' :: (['a'] ++ '|' :: []))).isOk = true ∧
    DataPackage.parse (CMD_QUERY ++ '|' :: (['a'] ++ '|' :: [])) =
      .ok ⟨CMD_QUERY, ['a'], []⟩ :=
  ⟨(C5_parse_characterization.1 _).mpr ⟨CMD_QUERY, ['a'], [], rfl, by decide, by decide, by decide⟩,
   C5_parse_characterization.2 CMD_QUERY ['a'] [] (by decide) (by decide) (by decide)⟩

/-- **C6** counterexample: the claim says stored dependency and dependent
collections never contain duplicates and that `index` collapses duplicates.
Refuted on the code: after `add_package "b" []`, the successful call
`add_package "a" ["b", "b"]` stores the dependency list `["b", "b"]` verbatim
and appends `"a"` twice to `used_by["b"]`. -/
theorem C6_duplicates_not_collapsed :
    (add_package (add_package emptyStore ['b'] []).2 ['a'] [['b'], ['b']]).1 =
      .ok (some ['a']) ∧
    find_package (add_package (add_package emptyStore ['b'] []).2 ['a'] [['b'], ['b']]).2 ['a'] =
      some [['b'], ['b']] ∧
    dictGet (add_package (add_package emptyStore
        ['b'] []).2 ['a'] [['b'], ['b']]).2.used_by ['b'] = some [['a'], ['a']] :=
  ⟨rfl, rfl, rfl⟩

/-- **C6** (amended): the store keeps the collections as plain lists; a
successful `add_package` stores the parsed dependency list verbatim — order
and duplicates preserved, nothing collapsed. -/
theorem C6_add_stores_list_verbatim (s : DataPackageStore) (nm : Name) (deps : List Name)
    (h : (add_package s nm deps).1 = .ok (some nm)) :
    find_package (add_package s nm deps).2 nm = some deps :=
  find_after_add s nm deps h

theorem C6_add_stores_list_verbatim_witness :
    find_package (add_package emptyStore ['a'] []).2 ['a'] = some [] :=
  C6_add_stores_list_verbatim emptyStore ['a'] [] rfl

/-- **C7** counterexample: the claim says a chunk containing `k`
newline-terminated frames gets exactly `k` response lines, one per frame.
Refuted on the code: `handle` passes each received chunk whole to
`process_request` without splitting on newlines, so the chunk
`QUERY|a|\nQUERY|b|\n` (two frames) produces the single response `FAIL\n`
(the regex match stops at the first newline and the second frame is never
processed). -/
theorem C7_two_frames_one_response :
    countFrames ['Q', 'U', 'E', 'R', 'Y', '|', 'a', '|', '\n',
                 'Q', 'U', 'E', 'R', 'Y', '|', 'b', '|', '\n'] = 2 ∧
    (handle emptyStore [['Q', 'U', 'E', 'R', 'Y', '|', 'a', '|', '\n',
                         'Q', 'U', 'E', 'R', 'Y', '|', 'b', '|', '\n']]).1 =
      [RESPONSE_FAIL] :=
  ⟨rfl, rfl⟩

/-- **C7** (amended): the connection handler writes exactly one response line
per received chunk, treating the whole chunk as a single request: `ERROR` when
the chunk fails to parse, and otherwise the store-result mapping of the claim
applied to that one request — QUERY found → `OK`, not found → `FAIL`;
REMOVE/INDEX returning the name → `OK`, returning `None` (Refused) → `FAIL`,
raising → `ERROR`. -/
theorem C7_one_response_per_chunk :
    (∀ (st : DataPackageStore) (chunks : List (List Char)),
        (handle st chunks).1.length = chunks.length) ∧
    (∀ (st : DataPackageStore) (c : List Char),
        (DataPackage.parse c).isOk = false →
          (process_request st c).1 = RESPONSE_ERROR) ∧
    (∀ (st : DataPackageStore) (c : List Char) (req : DataPackage),
        DataPackage.parse c = .ok req →
          (req.command = CMD_QUERY →
            (process_request st c).1 =
              if (find_package st req.name).isSome then RESPONSE_OK else RESPONSE_FAIL) ∧
          (req.command = CMD_REMOVE →
            ((remove_package st req.name).1 = .ok (some req.name) →
                (process_request st c).1 = RESPONSE_OK) ∧
            ((remove_package st req.name).1 = .ok none →
                (process_request st c).1 = RESPONSE_FAIL) ∧
            (∀ e, (remove_package st req.name).1 = .error e →
                (process_request st c).1 = RESPONSE_ERROR)) ∧
          (req.command = CMD_INDEX →
            ((add_package st req.name req.dependencies).1 = .ok (some req.name) →
                (process_request st c).1 = RESPONSE_OK) ∧
            ((add_package st req.name req.dependencies).1 = .ok none →
                (process_request st c).1 = RESPONSE_FAIL) ∧
            (∀ e, (add_package st req.name req.dependencies).1 = .error e →
                (process_request st c).1 = RESPONSE_ERROR))) :=
  ⟨handle_length, process_request_parse_error,
   fun st c req hp =>
     ⟨fun hq => process_request_query st c req hp hq,
      fun hr => process_request_remove st c req hp hr,
      fun hi => process_request_index st c req hp hi⟩⟩

theorem C7_one_response_per_chunk_witness :
    (handle emptyStore [['x']]).1.length = 1 ∧
    (process_request emptyStore ['x']).1 = RESPONSE_ERROR :=
  ⟨C7_one_response_per_chunk.1 emptyStore [['x']],
   C7_one_response_per_chunk.2.1 emptyStore ['x'] rfl⟩

/-- **C8** counterexample: the claim says two `DataPackageStore()` instances
own fresh independent maps, and no operation through one is observable through
the other.  Refuted on the code: the constructor's default arguments
`used_by={}` and `dependencies={}` are evaluated once, so both instances bind
the same dicts; an `add_package` through the first instance becomes visible to
a `find_package` through the second. -/
theorem C8_default_instances_not_independent :
    findViaSecondInstance twoDefaultInstances ['a'] = none ∧
    (addViaFirstInstance twoDefaultInstances ['a'] []).1 = .ok (some ['a']) ∧
    findViaSecondInstance (addViaFirstInstance twoDefaultInstances ['a'] []).2 ['a'] =
      some [] :=
  ⟨rfl, rfl, rfl⟩

/-- **C8** (amended): default-constructed instances alias one module-lifetime
pair of maps: every successful `add_package` performed through one
default-constructed instance is observed by `find_package` through the other,
which returns the stored dependency list. -/
theorem C8_default_instances_alias (w : DefaultDicts) (nm : Name) (deps : List Name)
    (h : (addViaFirstInstance w nm deps).1 = .ok (some nm)) :
    findViaSecondInstance (addViaFirstInstance w nm deps).2 nm = some deps :=
  find_after_add w.shared nm deps h

theorem C8_default_instances_alias_witness :
    findViaSecondInstance (addViaFirstInstance twoDefaultInstances ['b'] []).2 ['b'] =
      some [] :=
  C8_default_instances_alias twoDefaultInstances ['b'] [] rfl

/-- **C9** counterexample: the claim says that in every store state, two
successive `index(p, deps)` calls with an identical dep list — all of whose
members are currently indexed — leave the same state after the second call as
after the first.  Refuted on the code: from the reachable state built by
`add_package "b" []`, `add_package "c" []`, `add_package "p" ["b","b"]`,
`add_package "p" ["b","c"]`, the two successive calls `add_package "p" []`
(dep list empty, so trivially all indexed) leave different states: each call
raises `ValueError` part-way through the reverse cleanup, and the second one
removes one more `"p"` from `used_by["b"]` than the first. -/
theorem C9_second_identical_index_changes_state :
    (add_package (add_package (add_package (add_package emptyStore
        ['b'] []).2 ['c'] []).2 ['p'] [['b'], ['b']]).2 ['p'] [['b'], ['c']]).1 =
      .ok (some ['p']) ∧
    (add_package (add_package (add_package (add_package (add_package emptyStore
        ['b'] []).2 ['c'] []).2 ['p'] [['b'], ['b']]).2 ['p'] [['b'], ['c']]).2 ['p'] []).2 ≠
    (add_package (add_package (add_package (add_package (add_package (add_package emptyStore
        ['b'] []).2 ['c'] []).2 ['p'] [['b'], ['b']]).2 ['p'] [['b'], ['c']]).2
        ['p'] []).2 ['p'] []).2 :=
  ⟨rfl, by decide⟩

/-- **C9** (amended): if the first `add_package p deps` call returns the name
(it did not raise; in particular its declared dependencies were all indexed),
then an immediately repeated identical call returns the name again and leaves
the store state exactly as the first call left it. -/
theorem C9_index_idempotent_after_ok (s : DataPackageStore) (p : Name) (deps : List Name)
    (h : (add_package s p deps).1 = .ok (some p)) :
    add_package (add_package s p deps).2 p deps = (.ok (some p), (add_package s p deps).2) :=
  add_package_twice s p deps h

theorem C9_index_idempotent_after_ok_witness :
    add_package (add_package emptyStore ['a'] []).2 ['a'] [] =
      (.ok (some ['a']), (add_package emptyStore ['a'] []).2) :=
  C9_index_idempotent_after_ok emptyStore ['a'] [] rfl

/-- **C10**: for every store state, right after `add_package x deps` returns
the name, `find_package x` reports Present (`QUERY x` answers `OK`); and right
after any `remove_package x` that returns the key, `find_package x` reports
Absent (`QUERY x` answers `FAIL`). -/
theorem C10_roundtrip :
    (∀ (s : DataPackageStore) (x : Name) (deps : List Name),
        (add_package s x deps).1 = .ok (some x) →
        (find_package (add_package s x deps).2 x).isSome = true) ∧
    (∀ (s : DataPackageStore) (x : Name),
        (remove_package s x).1 = .ok (some x) →
        find_package (remove_package s x).2 x = none) :=
  ⟨fun s x deps h => by rw [find_after_add s x deps h]; rfl,
   find_after_remove⟩

theorem C10_roundtrip_witness :
    (find_package (add_package emptyStore ['a'] []).2 ['a']).isSome = true ∧
    find_package (remove_package (add_package emptyStore ['a'] []).2 ['a']).2 ['a'] = none :=
  ⟨C10_roundtrip.1 emptyStore ['a'] [] rfl,
   C10_roundtrip.2 (add_package emptyStore ['a'] []).2 ['a'] rfl⟩

end PackageIndex
